import Mathlib

/-!
Verification of the observer registry (`Manager`) from
`pkg/controller/elasticsearch/observer/manager.go`.

The Go code is a lock-guarded map from cluster identity (`types.NamespacedName`)
to a running `*Observer`.  We embed it sequentially: each registry operation is a
pure function on a `World` that carries

  * the `Manager` (its map, modelled as an association list, and its settings),
  * a fresh-id supply `nextWid` modelling Go heap allocation: each call to the
    observer constructor hands out a distinct `wid`, standing for the pointer
    identity of the new `*Observer`,
  * an event trace `events` recording each watcher creation and each call to
    `observer.Stop()`, so that "stopped exactly once, before the new watcher is
    created" is a statement about the trace.

The `Observer` internals (`NewObserver`, `Stop`, `LastState`), the client
equality check and the `Settings` payload are outside the provided source and
are modelled from the spec, as marked on their doc comments.
-/

set_option autoImplicit false

/-- Embeds `k8s.io/apimachinery/pkg/types.NamespacedName`: an opaque comparable
identity made of a namespace and a name. -/
structure NamespacedName where
  Namespace : String
  Name : String
deriving DecidableEq, Repr

/-- Modelled from the spec: `ClientConfig` — opaque connection parameters
(endpoint, credentials, trust material), collapsed into one opaque `config`
payload.  Only its `Equal` capability is visible to the registry. -/
structure Client where
  config : Nat
deriving DecidableEq, Repr

/-- Modelled from the spec: the ClientEquality capability — a pure predicate
deciding whether two client configurations are functionally identical. -/
def Client.Equal (c other : Client) : Bool :=
  c.config == other.config

/-- Modelled from the spec: the registry's static configuration (polling
interval, timeouts, ...), passed at construction and forwarded unchanged to
every created watcher; collapsed into one opaque payload. -/
structure Settings where
  ObservationInterval : Nat
deriving DecidableEq, Repr

/-- Modelled from the spec: `LastObservedState` — the most recently cached
result from a watcher, or the "unknown" sentinel if none was collected yet. -/
inductive State where
  | unknown : State
  | observed : Nat → State
deriving DecidableEq, Repr

/-- One watcher (`Observer` in the source): bound to a cluster identity and a
client configuration, created with the registry's settings.  `wid` models the
Go pointer identity of the heap-allocated `*Observer`; `lastState` is its
cached observation (mutated only by its own background task, which is outside
the registry and hence constant here). -/
structure Observer where
  clusterName : NamespacedName
  esClient : Client
  settings : Settings
  wid : Nat
  lastState : State
deriving DecidableEq, Repr

/-- Modelled from the spec: `watcher.LastState()` — non-blocking read of the
most recently cached observation. -/
def Observer.LastState (o : Observer) : State :=
  o.lastState

/-- Modelled from the spec: `NewObserver(name, esClient, settings)` — builds a
watcher bound to the given identity and client configuration with the
registry's settings and starts its background task; its cached state starts as
the "unknown" sentinel.  The extra `wid` argument is the fresh pointer identity
supplied by the allocation model. -/
def NewObserver (clusterName : NamespacedName) (esClient : Client)
    (settings : Settings) (wid : Nat) : Observer :=
  { clusterName := clusterName
    esClient := esClient
    settings := settings
    wid := wid
    lastState := State.unknown }

/-- Lookup in the observers map (`m.observers[clusterName]`). -/
def lookupObs : List (NamespacedName × Observer) → NamespacedName → Option Observer
  | [], _ => none
  | (k, o) :: rest, clusterName =>
      if k = clusterName then some o else lookupObs rest clusterName

/-- Deletion from the observers map (`delete(m.observers, clusterName)`): every
entry under the key disappears (a Go map holds at most one). -/
def eraseObs : List (NamespacedName × Observer) → NamespacedName → List (NamespacedName × Observer)
  | [], _ => []
  | (k, o) :: rest, clusterName =>
      if k = clusterName then eraseObs rest clusterName
      else (k, o) :: eraseObs rest clusterName

/-- Insertion into the observers map (`m.observers[clusterName] = observer`):
overwrites any prior entry under the key. -/
def insertObs (observers : List (NamespacedName × Observer))
    (clusterName : NamespacedName) (observer : Observer) : List (NamespacedName × Observer) :=
  (clusterName, observer) :: eraseObs observers clusterName

/-- The keys of the observers map. -/
def mapKeys (observers : List (NamespacedName × Observer)) : List NamespacedName :=
  observers.map (fun p => p.1)

/-- `Manager` from the source: the map of observers plus the static settings.
The `sync.RWMutex` has no sequential content and is not represented. -/
structure Manager where
  observers : List (NamespacedName × Observer)
  settings : Settings
deriving DecidableEq, Repr

/-- `NewManager`: a manager with an empty observers map and the given settings. -/
def NewManager (settings : Settings) : Manager :=
  { observers := [], settings := settings }

/-- `List`: the names of the clusters currently observed, read from the map. -/
def Manager.List (m : Manager) : List NamespacedName :=
  mapKeys m.observers

/-- Trace events: a watcher with pointer identity `wid` was created, or its
`Stop()` was called. -/
inductive Event where
  | created : Nat → Event
  | stopped : Nat → Event
deriving DecidableEq, Repr

/-- The sequential execution state: the manager, the allocation supply and the
event trace (oldest first). -/
structure World where
  mgr : Manager
  nextWid : Nat
  events : List Event
deriving DecidableEq, Repr

/-- Pointer identities of all watchers whose `Stop()` has been called. -/
def stoppedWids (events : List Event) : List Nat :=
  events.filterMap (fun e => match e with
    | Event.stopped i => some i
    | Event.created _ => none)

/-- Pointer identities of all watchers ever created. -/
def createdWids (events : List Event) : List Nat :=
  events.filterMap (fun e => match e with
    | Event.created i => some i
    | Event.stopped _ => none)

/-- `createObserver`: builds a new observer via `NewObserver` and creates or
replaces its entry in the observers map. -/
def createObserver (w : World) (clusterName : NamespacedName)
    (esClient : Client) : Observer × World :=
  let observer := NewObserver clusterName esClient w.mgr.settings w.nextWid
  (observer,
    { mgr := { w.mgr with observers := insertObs w.mgr.observers clusterName observer }
      nextWid := w.nextWid + 1
      events := w.events ++ [Event.created w.nextWid] })

/-- `StopObserving`: looks the observer up; if absent, returns at once;
otherwise calls its `Stop()` (recorded in the trace) and deletes its map entry. -/
def StopObserving (w : World) (clusterName : NamespacedName) : World :=
  match lookupObs w.mgr.observers clusterName with
  | none => w
  | some observer =>
      { mgr := { w.mgr with observers := eraseObs w.mgr.observers clusterName }
        nextWid := w.nextWid
        events := w.events ++ [Event.stopped observer.wid] }

/-- `Observe`: gets or creates the observer for the cluster; if the registered
observer's client is no longer `Equal` to the supplied one, it is stopped and
removed (via `StopObserving`) and a fresh observer is created. -/
def Observe (w : World) (clusterName : NamespacedName) (esClient : Client) : Observer × World :=
  match lookupObs w.mgr.observers clusterName with
  | none => createObserver w clusterName esClient
  | some observer =>
      if !(observer.esClient.Equal esClient) then
        createObserver (StopObserving w clusterName) clusterName esClient
      else
        (observer, w)

/-- `ObservedStateResolver`: `m.Observe(clusterName, esClient).LastState()`. -/
def ObservedStateResolver (w : World) (clusterName : NamespacedName)
    (esClient : Client) : State × World :=
  let p := Observe w clusterName esClient
  (p.1.LastState, p.2)

/-- `List` as a registry operation: it reads the map under a read lock and
returns a fresh slice of the keys, leaving the world untouched. -/
def ListOp (w : World) : List NamespacedName × World :=
  (w.mgr.List, w)

/-- Iterated `Observe` on one identity with one client configuration. -/
def observeIter (clusterName : NamespacedName) (esClient : Client) : Nat → World → World
  | 0, w => w
  | n + 1, w => observeIter clusterName esClient n (Observe w clusterName esClient).2

/-- The registry invariant: map keys are distinct (at most one watcher per
identity), watcher pointer identities are distinct and below the allocation
supply, every already-stopped identity is below the supply, and no map entry
refers to a stopped watcher. -/
def RegInv (w : World) : Prop :=
  (mapKeys w.mgr.observers).Nodup ∧
  (w.mgr.observers.map (fun p => p.2.wid)).Nodup ∧
  (∀ p ∈ w.mgr.observers, p.2.wid < w.nextWid) ∧
  (∀ i ∈ stoppedWids w.events, i < w.nextWid) ∧
  (∀ p ∈ w.mgr.observers, p.2.wid ∉ stoppedWids w.events)

/-- The world right after `NewManager`: empty map, no allocations, empty trace. -/
def initialWorld (settings : Settings) : World :=
  { mgr := NewManager settings, nextWid := 0, events := [] }

/-- A sample identity, used to exercise the executable model. -/
def sampleName : NamespacedName :=
  { Namespace := "default", Name := "es" }

/-- A second, distinct sample identity. -/
def sampleName2 : NamespacedName :=
  { Namespace := "default", Name := "es2" }

/-- A sample client configuration. -/
def sampleClient : Client :=
  { config := 1 }

/-- A second client configuration, not `Equal` to `sampleClient`. -/
def sampleClient2 : Client :=
  { config := 2 }

/-- Sample static settings. -/
def sampleSettings : Settings :=
  { ObservationInterval := 10 }

/-- A sample reachable world: one observer registered for `sampleName`, bound
to `sampleClient`, created as allocation 0. -/
def sampleWorld : World :=
  { mgr := { observers := [(sampleName, NewObserver sampleName sampleClient sampleSettings 0)]
             settings := sampleSettings }
    nextWid := 1
    events := [Event.created 0] }

/-! ### Map lemmas -/

theorem lookupObs_mem {l : List (NamespacedName × Observer)} {k : NamespacedName}
    {o : Observer} (h : lookupObs l k = some o) : (k, o) ∈ l := by
  induction l with
  | nil => simp [lookupObs] at h
  | cons p rest ih =>
      obtain ⟨k', o'⟩ := p
      by_cases hk : k' = k
      · subst hk
        simp [lookupObs] at h
        subst h
        exact List.mem_cons_self _ _
      · simp [lookupObs, hk] at h
        exact List.mem_cons_of_mem _ (ih h)

theorem eraseObs_sublist (l : List (NamespacedName × Observer)) (k : NamespacedName) :
    List.Sublist (eraseObs l k) l := by
  induction l with
  | nil => simp [eraseObs]
  | cons p rest ih =>
      obtain ⟨k', o'⟩ := p
      by_cases hk : k' = k
      · simpa [eraseObs, hk] using ih.cons (k', o')
      · simpa [eraseObs, hk] using ih.cons₂ (k', o')

theorem mem_eraseObs_ne {l : List (NamespacedName × Observer)} {k : NamespacedName}
    {p : NamespacedName × Observer} (h : p ∈ eraseObs l k) : p.1 ≠ k := by
  induction l with
  | nil => simp [eraseObs] at h
  | cons q rest ih =>
      obtain ⟨k', o'⟩ := q
      by_cases hk : k' = k
      · exact ih (by simpa [eraseObs, hk] using h)
      · simp [eraseObs, hk] at h
        rcases h with h | h
        · subst h; exact hk
        · exact ih h

theorem mem_of_mem_eraseObs {l : List (NamespacedName × Observer)} {k : NamespacedName}
    {p : NamespacedName × Observer} (h : p ∈ eraseObs l k) : p ∈ l :=
  (eraseObs_sublist l k).subset h

theorem lookupObs_eraseObs_self (l : List (NamespacedName × Observer)) (k : NamespacedName) :
    lookupObs (eraseObs l k) k = none := by
  induction l with
  | nil => simp [eraseObs, lookupObs]
  | cons p rest ih =>
      obtain ⟨k', o'⟩ := p
      by_cases hk : k' = k
      · simpa [eraseObs, hk] using ih
      · simpa [eraseObs, lookupObs, hk] using ih

theorem lookupObs_eraseObs_ne {k' : NamespacedName} (l : List (NamespacedName × Observer))
    (k : NamespacedName) (h : k' ≠ k) :
    lookupObs (eraseObs l k) k' = lookupObs l k' := by
  induction l with
  | nil => rfl
  | cons p rest ih =>
      obtain ⟨k₀, o₀⟩ := p
      by_cases hk : k₀ = k
      · have hne : ¬ (k₀ = k') := fun hh => h (hh.symm.trans hk)
        calc lookupObs (eraseObs ((k₀, o₀) :: rest) k) k'
            = lookupObs (eraseObs rest k) k' := by simp [eraseObs, hk]
          _ = lookupObs rest k' := ih
          _ = lookupObs ((k₀, o₀) :: rest) k' := by simp [lookupObs, hne]
      · by_cases hk' : k₀ = k'
        · simp [eraseObs, hk, lookupObs, hk', h]
        · simp [eraseObs, hk, lookupObs, hk', h, ih]

theorem lookupObs_insertObs_self (l : List (NamespacedName × Observer))
    (k : NamespacedName) (o : Observer) : lookupObs (insertObs l k o) k = some o := by
  simp [insertObs, lookupObs]

theorem lookupObs_insertObs_ne {k' : NamespacedName} (l : List (NamespacedName × Observer))
    (k : NamespacedName) (o : Observer) (h : k' ≠ k) :
    lookupObs (insertObs l k o) k' = lookupObs l k' := by
  have : ¬ (k = k') := fun hh => h hh.symm
  simp [insertObs, lookupObs, this, lookupObs_eraseObs_ne l k h]

theorem lookupObs_isSome_iff_mem_keys (l : List (NamespacedName × Observer))
    (k : NamespacedName) : (lookupObs l k).isSome = true ↔ k ∈ mapKeys l := by
  induction l with
  | nil => simp [lookupObs, mapKeys]
  | cons p rest ih =>
      obtain ⟨k', o'⟩ := p
      by_cases hk : k' = k
      · subst hk; simp [lookupObs, mapKeys]
      · have : ¬ (k = k') := fun hh => hk hh.symm
        simpa [lookupObs, mapKeys, hk, this] using ih

/-! ### Trace lemmas -/

theorem stoppedWids_append (ev ex : List Event) :
    stoppedWids (ev ++ ex) = stoppedWids ev ++ stoppedWids ex := by
  simp [stoppedWids]

theorem stoppedWids_created (i : Nat) : stoppedWids [Event.created i] = [] := rfl

theorem stoppedWids_stopped (i : Nat) : stoppedWids [Event.stopped i] = [i] := rfl

theorem createdWids_append (ev ex : List Event) :
    createdWids (ev ++ ex) = createdWids ev ++ createdWids ex := by
  simp [createdWids]

/-! ### Invariant preservation lemmas -/

theorem regInv_createObserver {w : World} (clusterName : NamespacedName)
    (esClient : Client) (h : RegInv w) : RegInv (createObserver w clusterName esClient).2 := by
  obtain ⟨h1, h2, h3, h4, h5⟩ := h
  have herase : ∀ p ∈ eraseObs w.mgr.observers clusterName, p ∈ w.mgr.observers :=
    fun p hp => mem_of_mem_eraseObs hp
  refine ⟨?_, ?_, ?_, ?_, ?_⟩
  · simp only [createObserver, insertObs, mapKeys, List.map_cons, List.nodup_cons]
    constructor
    · intro hmem
      obtain ⟨p, hp, hpk⟩ := List.mem_map.mp hmem
      exact mem_eraseObs_ne hp hpk
    · exact List.Nodup.sublist ((eraseObs_sublist _ _).map _) h1
  · simp only [createObserver, insertObs, List.map_cons, List.nodup_cons]
    constructor
    · intro hmem
      obtain ⟨p, hp, hpk⟩ := List.mem_map.mp hmem
      have := h3 p (herase p hp)
      simp [NewObserver] at hpk
      omega
    · exact List.Nodup.sublist ((eraseObs_sublist _ _).map _) h2
  · intro p hp
    simp only [createObserver, insertObs, List.mem_cons] at hp
    rcases hp with hp | hp
    · subst hp; simp [NewObserver, createObserver]
    · have := h3 p (herase p hp)
      simp [createObserver]
      omega
  · intro i hi
    simp only [createObserver, stoppedWids_append, stoppedWids_created,
      List.append_nil] at hi
    have := h4 i hi
    simp [createObserver]
    omega
  · intro p hp
    simp only [createObserver, insertObs, List.mem_cons] at hp
    simp only [createObserver, stoppedWids_append, stoppedWids_created, List.append_nil]
    rcases hp with hp | hp
    · subst hp
      intro hmem
      have := h4 _ hmem
      simp [NewObserver] at this
    · exact h5 p (herase p hp)

theorem regInv_StopObserving {w : World} (clusterName : NamespacedName)
    (h : RegInv w) : RegInv (StopObserving w clusterName) := by
  obtain ⟨h1, h2, h3, h4, h5⟩ := h
  unfold StopObserving
  cases hlookup : lookupObs w.mgr.observers clusterName with
  | none => exact ⟨h1, h2, h3, h4, h5⟩
  | some observer =>
      have hobs : (clusterName, observer) ∈ w.mgr.observers := lookupObs_mem hlookup
      have herase : ∀ p ∈ eraseObs w.mgr.observers clusterName, p ∈ w.mgr.observers :=
        fun p hp => mem_of_mem_eraseObs hp
      refine ⟨?_, ?_, ?_, ?_, ?_⟩
      · exact List.Nodup.sublist ((eraseObs_sublist _ _).map _) h1
      · exact List.Nodup.sublist ((eraseObs_sublist _ _).map _) h2
      · exact fun p hp => h3 p (herase p hp)
      · intro i hi
        simp only [stoppedWids_append, stoppedWids_stopped, List.mem_append,
          List.mem_singleton] at hi
        rcases hi with hi | hi
        · exact h4 i hi
        · subst hi
          exact h3 _ hobs
      · intro p hp
        simp only [stoppedWids_append, stoppedWids_stopped, List.mem_append,
          List.mem_singleton]
        intro hmem
        rcases hmem with hmem | hmem
        · exact h5 p (herase p hp) hmem
        · have hne : p ≠ (clusterName, observer) := by
            intro hq
            exact mem_eraseObs_ne hp (by rw [hq])
          exact hne (List.inj_on_of_nodup_map h2 (herase p hp) hobs hmem)

theorem regInv_Observe {w : World} (clusterName : NamespacedName)
    (esClient : Client) (h : RegInv w) : RegInv (Observe w clusterName esClient).2 := by
  unfold Observe
  cases hlookup : lookupObs w.mgr.observers clusterName with
  | none => exact regInv_createObserver clusterName esClient h
  | some observer =>
      by_cases heq : observer.esClient.Equal esClient
      · simp only [heq, Bool.not_true, Bool.false_eq_true, if_false]
        exact h
      · simp only [Bool.not_eq_true] at heq
        simp only [heq, Bool.not_false, if_true]
        exact regInv_createObserver clusterName esClient
          (regInv_StopObserving clusterName h)

theorem regInv_initialWorld (settings : Settings) : RegInv (initialWorld settings) := by
  refine ⟨?_, ?_, ?_, ?_, ?_⟩ <;> simp [initialWorld, NewManager, mapKeys, stoppedWids]

/-! ### Claim theorems -/

/-- C3: On an identity with no registered watcher, `Observe` is exactly
`createObserver`: one new watcher bound to the identity and the supplied client
configuration is created, inserted into the mapping, exactly one creation (and
no stop) is recorded, and `ObservedStateResolver` returns the new watcher's
current last state, the "unknown" sentinel. -/
theorem C3_creation_path (w : World) (clusterName : NamespacedName) (esClient : Client)
    (hlookup : lookupObs w.mgr.observers clusterName = none) :
    Observe w clusterName esClient = createObserver w clusterName esClient ∧
    (Observe w clusterName esClient).1
      = NewObserver clusterName esClient w.mgr.settings w.nextWid ∧
    lookupObs (Observe w clusterName esClient).2.mgr.observers clusterName
      = some (Observe w clusterName esClient).1 ∧
    createdWids (Observe w clusterName esClient).2.events
      = createdWids w.events ++ [w.nextWid] ∧
    stoppedWids (Observe w clusterName esClient).2.events = stoppedWids w.events ∧
    (ObservedStateResolver w clusterName esClient).1 = State.unknown := by
  have hobs : Observe w clusterName esClient = createObserver w clusterName esClient := by
    simp [Observe, hlookup]
  refine ⟨hobs, ?_, ?_, ?_, ?_, ?_⟩
  · rw [hobs]
    rfl
  · rw [hobs]
    exact lookupObs_insertObs_self _ _ _
  · rw [hobs]
    simp [createObserver, createdWids_append, createdWids]
  · rw [hobs]
    simp [createObserver, stoppedWids_append, stoppedWids_created]
  · simp [ObservedStateResolver, hobs, createObserver, NewObserver, Observer.LastState]

/-- C3 witness: on the fresh registry, `Observe` for the sample identity takes
the creation path. -/
theorem C3_creation_path_witness :
    Observe (initialWorld sampleSettings) sampleName sampleClient
      = createObserver (initialWorld sampleSettings) sampleName sampleClient ∧
    (Observe (initialWorld sampleSettings) sampleName sampleClient).1
      = NewObserver sampleName sampleClient (initialWorld sampleSettings).mgr.settings
          (initialWorld sampleSettings).nextWid ∧
    lookupObs (Observe (initialWorld sampleSettings) sampleName sampleClient).2.mgr.observers
        sampleName
      = some (Observe (initialWorld sampleSettings) sampleName sampleClient).1 ∧
    createdWids (Observe (initialWorld sampleSettings) sampleName sampleClient).2.events
      = createdWids (initialWorld sampleSettings).events ++ [(initialWorld sampleSettings).nextWid] ∧
    stoppedWids (Observe (initialWorld sampleSettings) sampleName sampleClient).2.events
      = stoppedWids (initialWorld sampleSettings).events ∧
    (ObservedStateResolver (initialWorld sampleSettings) sampleName sampleClient).1
      = State.unknown :=
  C3_creation_path (initialWorld sampleSettings) sampleName sampleClient (by decide)

/-- C4: On an identity whose registered watcher's bound client configuration is
`Equal` to the supplied one, `Observe` returns the existing watcher and leaves
the whole world (mapping, allocation supply and trace) unchanged,
`ObservedStateResolver` returns its cached state, and any number of repeated
such calls leaves the world unchanged — so at most one watcher is ever created
by a sequence of same-configuration calls. -/
theorem C4_hot_path (w : World) (clusterName : NamespacedName) (esClient : Client)
    (observer : Observer)
    (hlookup : lookupObs w.mgr.observers clusterName = some observer)
    (heq : observer.esClient.Equal esClient = true) :
    Observe w clusterName esClient = (observer, w) ∧
    ObservedStateResolver w clusterName esClient = (observer.LastState, w) ∧
    ∀ n, observeIter clusterName esClient n w = w := by
  have hobs : Observe w clusterName esClient = (observer, w) := by
    simp [Observe, hlookup, heq]
  refine ⟨hobs, ?_, ?_⟩
  · simp [ObservedStateResolver, hobs]
  · intro n
    induction n with
    | zero => rfl
    | succ n ih =>
        show observeIter clusterName esClient n (Observe w clusterName esClient).2 = w
        rw [hobs]
        exact ih

/-- C4 witness: in the sample world, resolving the sample identity with the
already-bound client configuration is a pure read. -/
theorem C4_hot_path_witness :
    Observe sampleWorld sampleName sampleClient
      = (NewObserver sampleName sampleClient sampleSettings 0, sampleWorld) ∧
    ObservedStateResolver sampleWorld sampleName sampleClient
      = ((NewObserver sampleName sampleClient sampleSettings 0).LastState, sampleWorld) ∧
    ∀ n, observeIter sampleName sampleClient n sampleWorld = sampleWorld :=
  C4_hot_path sampleWorld sampleName sampleClient
    (NewObserver sampleName sampleClient sampleSettings 0) (by decide) (by decide)

/-- C5: `StopObserving` is total (never errors), returns the world unchanged
when the identity has no registered watcher, and is idempotent: a second call
on the same identity has no observable effect. -/
theorem C5_stop_idempotent (w : World) (clusterName : NamespacedName) :
    (lookupObs w.mgr.observers clusterName = none → StopObserving w clusterName = w) ∧
    StopObserving (StopObserving w clusterName) clusterName
      = StopObserving w clusterName := by
  have habsent : ∀ w' : World, lookupObs w'.mgr.observers clusterName = none →
      StopObserving w' clusterName = w' := by
    intro w' h
    simp [StopObserving, h]
  refine ⟨habsent w, ?_⟩
  cases hl : lookupObs w.mgr.observers clusterName with
  | none => simp [habsent w hl]
  | some observer =>
      apply habsent
      simp [StopObserving, hl, lookupObs_eraseObs_self]

/-- C5 witness: stopping the sample identity twice equals stopping it once, and
stopping an absent identity is the identity operation. -/
theorem C5_stop_idempotent_witness :
    (lookupObs sampleWorld.mgr.observers sampleName2 = none →
      StopObserving sampleWorld sampleName2 = sampleWorld) ∧
    StopObserving (StopObserving sampleWorld sampleName2) sampleName2
      = StopObserving sampleWorld sampleName2 :=
  C5_stop_idempotent sampleWorld sampleName2

/-- C8: `createObserver` builds a watcher bound to the given identity and
client configuration carrying the registry's static settings unchanged,
registers it under the identity (overwriting any prior entry, recording no
stop), appends exactly one creation to the trace, returns it, and `NewManager`
starts from the empty mapping with the given settings. -/
theorem C8_create_semantics (w : World) (clusterName : NamespacedName)
    (esClient : Client) (settings : Settings) :
    (createObserver w clusterName esClient).1
      = NewObserver clusterName esClient w.mgr.settings w.nextWid ∧
    (createObserver w clusterName esClient).1.settings = w.mgr.settings ∧
    lookupObs (createObserver w clusterName esClient).2.mgr.observers clusterName
      = some (createObserver w clusterName esClient).1 ∧
    (createObserver w clusterName esClient).2.mgr.settings = w.mgr.settings ∧
    stoppedWids (createObserver w clusterName esClient).2.events = stoppedWids w.events ∧
    (createObserver w clusterName esClient).2.events
      = w.events ++ [Event.created w.nextWid] ∧
    NewManager settings = { observers := [], settings := settings } := by
  refine ⟨rfl, rfl, lookupObs_insertObs_self _ _ _, rfl, ?_, rfl, rfl⟩
  simp [createObserver, stoppedWids_append, stoppedWids_created]

/-- C9: `ObservedStateResolver` is precisely `Observe` followed by `LastState`
on the returned watcher: it returns that watcher's last state and leaves the
registry in exactly the state `Observe` leaves it in. -/
theorem C9_resolver_equivalence (w : World) (clusterName : NamespacedName)
    (esClient : Client) :
    ObservedStateResolver w clusterName esClient
      = ((Observe w clusterName esClient).1.LastState,
         (Observe w clusterName esClient).2) :=
  rfl

/-- After `StopObserving` the identity is absent from the mapping, whatever the
starting world. -/
theorem lookupObs_StopObserving_self (w : World) (clusterName : NamespacedName) :
    lookupObs (StopObserving w clusterName).mgr.observers clusterName = none := by
  cases hl : lookupObs w.mgr.observers clusterName with
  | none => simp [StopObserving, hl]
  | some observer => simp [StopObserving, hl, lookupObs_eraseObs_self]

/-- C1: The registry invariant — at most one watcher entry per identity and no
entry referring to a stopped watcher (strengthened with allocation-freshness
clauses that make it inductive) — holds of the fresh registry and is preserved
by every completed operation: `ObservedStateResolver`, `Observe`,
`createObserver`, `StopObserving` and `ListOp`. -/
theorem C1_registry_invariant (w : World) (clusterName : NamespacedName)
    (esClient : Client) (settings : Settings) (h : RegInv w) :
    RegInv (initialWorld settings) ∧
    RegInv (ObservedStateResolver w clusterName esClient).2 ∧
    RegInv (Observe w clusterName esClient).2 ∧
    RegInv (createObserver w clusterName esClient).2 ∧
    RegInv (StopObserving w clusterName) ∧
    RegInv (ListOp w).2 :=
  ⟨regInv_initialWorld settings,
   regInv_Observe clusterName esClient h,
   regInv_Observe clusterName esClient h,
   regInv_createObserver clusterName esClient h,
   regInv_StopObserving clusterName h,
   h⟩

/-- C1 witness: the invariant holds for the sample world and is preserved by
each operation applied to it. -/
theorem C1_registry_invariant_witness :
    RegInv (initialWorld sampleSettings) ∧
    RegInv (ObservedStateResolver sampleWorld sampleName2 sampleClient2).2 ∧
    RegInv (Observe sampleWorld sampleName2 sampleClient2).2 ∧
    RegInv (createObserver sampleWorld sampleName2 sampleClient2).2 ∧
    RegInv (StopObserving sampleWorld sampleName2) ∧
    RegInv (ListOp sampleWorld).2 :=
  C1_registry_invariant sampleWorld sampleName2 sampleClient2 sampleSettings
    (by unfold RegInv; decide)

/-- C2: When the registered watcher's bound client configuration is not `Equal`
to the supplied one, `Observe` stops the old watcher exactly once, the stop is
recorded in the trace strictly before the single creation, the old watcher's
entry is removed from the mapping, exactly one new watcher bound to the
supplied client configuration is created and registered, and its fresh
("unknown") state is what `ObservedStateResolver` returns. -/
theorem C2_replacement_path (w : World) (clusterName : NamespacedName)
    (esClient : Client) (observer : Observer)
    (hreg : RegInv w)
    (hlookup : lookupObs w.mgr.observers clusterName = some observer)
    (hneq : observer.esClient.Equal esClient = false) :
    (Observe w clusterName esClient).2.events
      = w.events ++ [Event.stopped observer.wid, Event.created w.nextWid] ∧
    (stoppedWids (Observe w clusterName esClient).2.events).count observer.wid = 1 ∧
    (Observe w clusterName esClient).1
      = NewObserver clusterName esClient w.mgr.settings w.nextWid ∧
    (Observe w clusterName esClient).1.esClient = esClient ∧
    createdWids (Observe w clusterName esClient).2.events
      = createdWids w.events ++ [w.nextWid] ∧
    lookupObs (Observe w clusterName esClient).2.mgr.observers clusterName
      = some (Observe w clusterName esClient).1 ∧
    (∀ p ∈ (Observe w clusterName esClient).2.mgr.observers, p.2 ≠ observer) ∧
    (ObservedStateResolver w clusterName esClient).1 = State.unknown := by
  obtain ⟨h1, h2, h3, h4, h5⟩ := hreg
  have hmem : (clusterName, observer) ∈ w.mgr.observers := lookupObs_mem hlookup
  have hobs : Observe w clusterName esClient
      = createObserver (StopObserving w clusterName) clusterName esClient := by
    simp [Observe, hlookup, hneq]
  have hstop : StopObserving w clusterName =
      { mgr := { w.mgr with observers := eraseObs w.mgr.observers clusterName }
        nextWid := w.nextWid
        events := w.events ++ [Event.stopped observer.wid] } := by
    simp [StopObserving, hlookup]
  refine ⟨?_, ?_, ?_, ?_, ?_, ?_, ?_, ?_⟩
  · rw [hobs, hstop]
    simp [createObserver, List.append_assoc]
  · rw [hobs, hstop]
    have hnotin : observer.wid ∉ stoppedWids w.events := h5 _ hmem
    have hcount : List.count observer.wid (stoppedWids w.events) = 0 :=
      List.count_eq_zero_of_not_mem hnotin
    simp only [createObserver, stoppedWids_append, stoppedWids_stopped, stoppedWids_created,
      List.count_append, hcount]
    simp
  · rw [hobs, hstop]
    rfl
  · rw [hobs, hstop]
    rfl
  · rw [hobs, hstop]
    simp [createObserver, createdWids_append, createdWids]
  · rw [hobs, hstop]
    exact lookupObs_insertObs_self _ _ _
  · rw [hobs, hstop]
    intro p hp
    simp only [createObserver, insertObs, List.mem_cons] at hp
    rcases hp with hp | hp
    · subst hp
      intro hq
      have hw : observer.wid < w.nextWid := by simpa using h3 _ hmem
      have hq' : observer.wid = w.nextWid := by
        rw [← hq]
        rfl
      omega
    · have hp1 : p.1 ≠ clusterName := mem_eraseObs_ne hp
      have hpl : p ∈ w.mgr.observers :=
        mem_of_mem_eraseObs (mem_of_mem_eraseObs hp)
      intro hq
      have hpe : p = (clusterName, observer) :=
        List.inj_on_of_nodup_map h2 hpl hmem (by rw [hq])
      exact hp1 (by rw [hpe])
  · simp [ObservedStateResolver, hobs, hstop, createObserver, NewObserver,
      Observer.LastState]

/-- C2 witness: resolving the sample identity with a different client
configuration replaces the watcher in the sample world. -/
theorem C2_replacement_path_witness :
    (Observe sampleWorld sampleName sampleClient2).2.events
      = sampleWorld.events
        ++ [Event.stopped (NewObserver sampleName sampleClient sampleSettings 0).wid,
            Event.created sampleWorld.nextWid] ∧
    (stoppedWids (Observe sampleWorld sampleName sampleClient2).2.events).count
        (NewObserver sampleName sampleClient sampleSettings 0).wid = 1 ∧
    (Observe sampleWorld sampleName sampleClient2).1
      = NewObserver sampleName sampleClient2 sampleWorld.mgr.settings sampleWorld.nextWid ∧
    (Observe sampleWorld sampleName sampleClient2).1.esClient = sampleClient2 ∧
    createdWids (Observe sampleWorld sampleName sampleClient2).2.events
      = createdWids sampleWorld.events ++ [sampleWorld.nextWid] ∧
    lookupObs (Observe sampleWorld sampleName sampleClient2).2.mgr.observers sampleName
      = some (Observe sampleWorld sampleName sampleClient2).1 ∧
    (∀ p ∈ (Observe sampleWorld sampleName sampleClient2).2.mgr.observers,
      p.2 ≠ NewObserver sampleName sampleClient sampleSettings 0) ∧
    (ObservedStateResolver sampleWorld sampleName sampleClient2).1 = State.unknown :=
  C2_replacement_path sampleWorld sampleName sampleClient2
    (NewObserver sampleName sampleClient sampleSettings 0)
    (by unfold RegInv; decide) (by decide) (by decide)

/-- C6: After `StopObserving(id)` the identity is absent from `List()`, and a
subsequent `Observe(id, cfg)` creates a brand-new watcher — one freshly built
by `NewObserver` with a pointer identity that was never stopped — rather than
reusing the stopped one. -/
theorem C6_stop_postcondition (w : World) (clusterName : NamespacedName)
    (esClient : Client) (hreg : RegInv w) :
    clusterName ∉ (StopObserving w clusterName).mgr.List ∧
    (Observe (StopObserving w clusterName) clusterName esClient).1
      = NewObserver clusterName esClient (StopObserving w clusterName).mgr.settings
          (StopObserving w clusterName).nextWid ∧
    (Observe (StopObserving w clusterName) clusterName esClient).1.wid
      ∉ stoppedWids (StopObserving w clusterName).events ∧
    createdWids (Observe (StopObserving w clusterName) clusterName esClient).2.events
      = createdWids (StopObserving w clusterName).events
        ++ [(StopObserving w clusterName).nextWid] := by
  have hnone : lookupObs (StopObserving w clusterName).mgr.observers clusterName = none :=
    lookupObs_StopObserving_self w clusterName
  have hobs : Observe (StopObserving w clusterName) clusterName esClient
      = createObserver (StopObserving w clusterName) clusterName esClient := by
    simp [Observe, hnone]
  have hreg' : RegInv (StopObserving w clusterName) :=
    regInv_StopObserving clusterName hreg
  refine ⟨?_, ?_, ?_, ?_⟩
  · intro hmemL
    have : (lookupObs (StopObserving w clusterName).mgr.observers clusterName).isSome
        = true :=
      (lookupObs_isSome_iff_mem_keys _ _).mpr hmemL
    rw [hnone] at this
    simp at this
  · rw [hobs]
    rfl
  · rw [hobs]
    intro hmem
    obtain ⟨_, _, _, h4, _⟩ := hreg'
    exact absurd (h4 _ hmem) (by simp [createObserver, NewObserver])
  · rw [hobs]
    simp [createObserver, createdWids_append, createdWids]

/-- C6 witness: stopping the sample identity, then observing it again with a
new client configuration, builds a brand-new watcher. -/
theorem C6_stop_postcondition_witness :
    sampleName ∉ (StopObserving sampleWorld sampleName).mgr.List ∧
    (Observe (StopObserving sampleWorld sampleName) sampleName sampleClient2).1
      = NewObserver sampleName sampleClient2
          (StopObserving sampleWorld sampleName).mgr.settings
          (StopObserving sampleWorld sampleName).nextWid ∧
    (Observe (StopObserving sampleWorld sampleName) sampleName sampleClient2).1.wid
      ∉ stoppedWids (StopObserving sampleWorld sampleName).events ∧
    createdWids
        (Observe (StopObserving sampleWorld sampleName) sampleName sampleClient2).2.events
      = createdWids (StopObserving sampleWorld sampleName).events
        ++ [(StopObserving sampleWorld sampleName).nextWid] :=
  C6_stop_postcondition sampleWorld sampleName sampleClient2 (by unfold RegInv; decide)

/-- C7: `List()` is a pure snapshot of the mapping: an identity occurs in the
returned list iff it is currently registered, it occurs at most once (exactly
once when registered, given the unique-key invariant clause), and taking the
snapshot leaves the world unchanged. -/
theorem C7_list_correctness (m : Manager) (clusterName : NamespacedName)
    (hnodup : (mapKeys m.observers).Nodup) :
    (clusterName ∈ m.List ↔ (lookupObs m.observers clusterName).isSome = true) ∧
    m.List.count clusterName ≤ 1 ∧
    ((lookupObs m.observers clusterName).isSome = true → m.List.count clusterName = 1) ∧
    (∀ w : World, ListOp w = (w.mgr.List, w)) := by
  refine ⟨(lookupObs_isSome_iff_mem_keys _ _).symm, ?_, ?_, fun w => rfl⟩
  · exact List.nodup_iff_count_le_one.mp hnodup clusterName
  · intro h
    exact List.count_eq_one_of_mem hnodup ((lookupObs_isSome_iff_mem_keys _ _).mp h)

/-- C7 witness: the snapshot of the sample manager contains exactly its one
registered identity. -/
theorem C7_list_correctness_witness :
    (sampleName ∈ sampleWorld.mgr.List
      ↔ (lookupObs sampleWorld.mgr.observers sampleName).isSome = true) ∧
    sampleWorld.mgr.List.count sampleName ≤ 1 ∧
    ((lookupObs sampleWorld.mgr.observers sampleName).isSome = true →
      sampleWorld.mgr.List.count sampleName = 1) ∧
    (∀ w : World, ListOp w = (w.mgr.List, w)) :=
  C7_list_correctness sampleWorld.mgr sampleName (by decide)

/-- C10: (i) the watcher returned by `Observe(id, cfg)` is registered in the
mapping under `id` and its bound client configuration is `Equal` to `cfg`;
(ii) `Observe(id, cfg)` and `StopObserving(id)` leave every other identity's
entry untouched and never stop another identity's watcher. -/
theorem C10_registration_and_frame (w : World) (clusterName other : NamespacedName)
    (esClient : Client) (hreg : RegInv w) (hne : other ≠ clusterName) :
    lookupObs (Observe w clusterName esClient).2.mgr.observers clusterName
      = some (Observe w clusterName esClient).1 ∧
    (Observe w clusterName esClient).1.esClient.Equal esClient = true ∧
    lookupObs (Observe w clusterName esClient).2.mgr.observers other
      = lookupObs w.mgr.observers other ∧
    lookupObs (StopObserving w clusterName).mgr.observers other
      = lookupObs w.mgr.observers other ∧
    (∀ o, lookupObs w.mgr.observers other = some o →
      o.wid ∉ stoppedWids (Observe w clusterName esClient).2.events ∧
      o.wid ∉ stoppedWids (StopObserving w clusterName).events) := by
  obtain ⟨h1, h2, h3, h4, h5⟩ := hreg
  cases hl : lookupObs w.mgr.observers clusterName with
  | none =>
      have hobs : Observe w clusterName esClient
          = createObserver w clusterName esClient := by
        simp [Observe, hl]
      have hstopEq : StopObserving w clusterName = w := by
        simp [StopObserving, hl]
      refine ⟨?_, ?_, ?_, ?_, ?_⟩
      · rw [hobs]
        exact lookupObs_insertObs_self _ _ _
      · rw [hobs]
        simp [createObserver, NewObserver, Client.Equal]
      · rw [hobs]
        exact lookupObs_insertObs_ne _ _ _ hne
      · rw [hstopEq]
      · intro o ho
        have hom : (other, o) ∈ w.mgr.observers := lookupObs_mem ho
        have hnot : o.wid ∉ stoppedWids w.events := h5 _ hom
        constructor
        · rw [hobs]
          simpa [createObserver, stoppedWids_append, stoppedWids_created] using hnot
        · rw [hstopEq]
          exact hnot
  | some observer =>
      have hmem : (clusterName, observer) ∈ w.mgr.observers := lookupObs_mem hl
      have hstop : StopObserving w clusterName =
          { mgr := { w.mgr with observers := eraseObs w.mgr.observers clusterName }
            nextWid := w.nextWid
            events := w.events ++ [Event.stopped observer.wid] } := by
        simp [StopObserving, hl]
      have hwidne : ∀ o : Observer, lookupObs w.mgr.observers other = some o →
          o.wid ≠ observer.wid := by
        intro o ho hq
        have hom : (other, o) ∈ w.mgr.observers := lookupObs_mem ho
        have : (other, o) = (clusterName, observer) :=
          List.inj_on_of_nodup_map h2 hom hmem hq
        exact hne (congrArg Prod.fst this)
      by_cases heq : observer.esClient.Equal esClient = true
      · have hobs : Observe w clusterName esClient = (observer, w) := by
          simp [Observe, hl, heq]
        refine ⟨?_, ?_, ?_, ?_, ?_⟩
        · rw [hobs]
          exact hl
        · rw [hobs]
          exact heq
        · rw [hobs]
        · rw [hstop]
          exact lookupObs_eraseObs_ne _ _ hne
        · intro o ho
          have hom : (other, o) ∈ w.mgr.observers := lookupObs_mem ho
          have hnot : o.wid ∉ stoppedWids w.events := h5 _ hom
          constructor
          · rw [hobs]
            exact hnot
          · rw [hstop]
            simp only [stoppedWids_append, stoppedWids_stopped, List.mem_append,
              List.mem_singleton]
            intro hc
            rcases hc with hc | hc
            · exact hnot hc
            · exact hwidne o ho hc
      · have hneq : observer.esClient.Equal esClient = false := by
          simpa using heq
        have hobs : Observe w clusterName esClient
            = createObserver (StopObserving w clusterName) clusterName esClient := by
          simp [Observe, hl, hneq]
        refine ⟨?_, ?_, ?_, ?_, ?_⟩
        · rw [hobs]
          exact lookupObs_insertObs_self _ _ _
        · rw [hobs]
          simp [createObserver, NewObserver, Client.Equal]
        · rw [hobs, hstop]
          calc lookupObs (insertObs (eraseObs w.mgr.observers clusterName) clusterName
                  (NewObserver clusterName esClient w.mgr.settings w.nextWid)) other
              = lookupObs (eraseObs w.mgr.observers clusterName) other :=
                lookupObs_insertObs_ne _ _ _ hne
            _ = lookupObs w.mgr.observers other := lookupObs_eraseObs_ne _ _ hne
        · rw [hstop]
          exact lookupObs_eraseObs_ne _ _ hne
        · intro o ho
          have hom : (other, o) ∈ w.mgr.observers := lookupObs_mem ho
          have hnot : o.wid ∉ stoppedWids w.events := h5 _ hom
          have hstopnot : o.wid ∉ stoppedWids (StopObserving w clusterName).events := by
            rw [hstop]
            simp only [stoppedWids_append, stoppedWids_stopped, List.mem_append,
              List.mem_singleton]
            intro hc
            rcases hc with hc | hc
            · exact hnot hc
            · exact hwidne o ho hc
          constructor
          · rw [hobs]
            simpa [createObserver, stoppedWids_append, stoppedWids_created]
              using hstopnot
          · exact hstopnot

/-- C10 witness: in the sample world, replacing the watcher of the sample
identity registers the returned watcher there and leaves the other sample
identity untouched. -/
theorem C10_registration_and_frame_witness :
    lookupObs (Observe sampleWorld sampleName sampleClient2).2.mgr.observers sampleName
      = some (Observe sampleWorld sampleName sampleClient2).1 ∧
    (Observe sampleWorld sampleName sampleClient2).1.esClient.Equal sampleClient2
      = true ∧
    lookupObs (Observe sampleWorld sampleName sampleClient2).2.mgr.observers sampleName2
      = lookupObs sampleWorld.mgr.observers sampleName2 ∧
    lookupObs (StopObserving sampleWorld sampleName).mgr.observers sampleName2
      = lookupObs sampleWorld.mgr.observers sampleName2 ∧
    (∀ o, lookupObs sampleWorld.mgr.observers sampleName2 = some o →
      o.wid ∉ stoppedWids (Observe sampleWorld sampleName sampleClient2).2.events ∧
      o.wid ∉ stoppedWids (StopObserving sampleWorld sampleName).events) :=
  C10_registration_and_frame sampleWorld sampleName sampleName2 sampleClient2
    (by unfold RegInv; decide) (by decide)
